import Mathlib

/-!
Verification of the incremental GSC-to-spreadsheet sync engine in `main.py`.

The development shallowly embeds the pure logic of the script:

* `get_last_date` (lines 58-67): the watermark tracker, reading column 1 of a
  worksheet and taking Python's `max` over the remaining cell values. Python
  strings compare lexicographically by code point, so cell values are modelled
  as `List Nat` of code points and `max` as a left fold with a lexicographic
  comparison, exactly mirroring `m = x if m < x else m`.
* `ensure_worksheet` (lines 43-56): idempotent worksheet provisioning. A
  worksheet is modelled by its list of data rows (each a list of cell strings);
  `spreadsheet.worksheet(name)` either returns the existing sheet or raises,
  in which case an empty sheet is created, so the model takes an
  `Option (List (List String))`. `row_values(1)` is the head row (or `[]`).
* the window computation of `fetch_gsc_data` (lines 96-107), `planWindow`:
  dates are day numbers (`Int`); `end = today - 3`,
  `start = watermark + 1` or `today - 400` when the watermark is absent.
* the orchestrator `fetch_gsc_data` (lines 69-164): modelled as a function
  from an environment (credential availability, spreadsheet-open outcome,
  anchor-column read outcome, today's date, per-target fetch and append
  outcomes) to the list of observable events of the run. The anchor column's
  date cells are carried as already-parsed day numbers here; the
  string-level watermark computation is analysed separately via
  `get_last_date`. The four fetch/append blocks all live inside the single
  `try`/`except` of lines 116-164, so the model stops the per-target loop at
  the first raised error — including an `IndexError` from `r['keys'][i]` on
  a row with too few keys, which `rowCells` models as an error outcome.
  Float metrics (`ctr`, `position`) are carried as opaque values: the
  script never computes with them, it only copies them.
-/

namespace GscSync

/-! ### Python strings and `max` -/

/-- A Python string as its list of code points; Python compares strings
lexicographically by code point. -/
abbrev PyStr := List Nat

/-- Lexicographic strict comparison of code-point lists: the order Python's
`<` uses on strings. -/
def strLtB : PyStr → PyStr → Bool
  | [], [] => false
  | [], _ :: _ => true
  | _ :: _, [] => false
  | a :: s, b :: t => if a < b then true else if b < a then false else strLtB s t

/-- Python's `max` over a non-empty iterable with initial element `m`:
the running maximum is replaced only when a strictly greater element
appears. -/
def pyMax (lt : α → α → Bool) (m : α) (l : List α) : α :=
  l.foldl (fun acc x => if lt acc x then x else acc) m

/-- Model of `get_last_date` (main.py lines 58-67): reads column 1 of the worksheet
(`col_values(1)`), drops the header cell (`[1:]`), returns `None` when no
data cells remain and Python's `max` of the cell strings otherwise. A raised
exception while reading is caught and also yields `None`. -/
def get_last_date (colRead : Except Unit (List PyStr)) : Option PyStr :=
  match colRead with
  | .error _ => none
  | .ok col =>
    match col.drop 1 with
    | [] => none
    | d :: ds => some (pyMax strLtB d ds)

/-! ### ISO date rendering (`strftime('%Y-%m-%d')`) -/

/-- Zero-padded 4-digit decimal rendering of `n` as code points. -/
def pad4 (n : Nat) : PyStr :=
  [48 + n / 1000 % 10, 48 + n / 100 % 10, 48 + n / 10 % 10, 48 + n % 10]

/-- Zero-padded 2-digit decimal rendering of `n` as code points. -/
def pad2 (n : Nat) : PyStr :=
  [48 + n / 10 % 10, 48 + n % 10]

/-- A calendar date as year/month/day fields. -/
structure YMD where
  y : Nat
  m : Nat
  d : Nat
deriving DecidableEq, Repr

/-- Chronological (field-lexicographic) strict comparison of dates. -/
def ymdLtB (a b : YMD) : Bool :=
  decide (a.y < b.y ∨ (a.y = b.y ∧ (a.m < b.m ∨ (a.m = b.m ∧ a.d < b.d))))

/-- Dates representable by `strftime('%Y-%m-%d')` with a fixed-width
four-digit year. -/
def validYMD (a : YMD) : Prop :=
  1000 ≤ a.y ∧ a.y ≤ 9999 ∧ 1 ≤ a.m ∧ a.m ≤ 12 ∧ 1 ≤ a.d ∧ a.d ≤ 31

instance (a : YMD) : Decidable (validYMD a) := by
  unfold validYMD; infer_instance

/-- Model of `strftime('%Y-%m-%d')`: `YYYY-MM-DD` as code points (45 is `-`). -/
def isoStr (a : YMD) : PyStr :=
  pad4 a.y ++ 45 :: (pad2 a.m ++ 45 :: pad2 a.d)

/-! ### `ensure_worksheet` -/

/-- Model of `ensure_worksheet` (main.py lines 43-56). `existing` is the outcome of
`spreadsheet.worksheet(name)`: `none` when the lookup raises
`WorksheetNotFound`, in which case a fresh empty sheet is created
(`add_worksheet`). Then `row_values(1)` is inspected and the header row is
appended exactly when it is empty. Returns the resulting worksheet rows. -/
def ensure_worksheet (existing : Option (List (List String))) (headers : List String) :
    List (List String) :=
  let ws := match existing with
    | some w => w
    | none => []
  if ws.headD [] = [] then ws ++ [headers] else ws

/-! ### Window planner -/

/- Calendar dates are carried as day numbers (`Int`). -/

/-- The window computation of `fetch_gsc_data` (main.py lines 96-107):
`end_date = today - timedelta(days=3)`; `start_date` is
`watermark + timedelta(days=1)` when the anchor watermark is present and
`today - timedelta(days=400)` otherwise. Returns `(start_date, end_date)`. -/
def planWindow (watermark : Option Int) (today : Int) : Int × Int :=
  let endDate := today - 3
  let startDate := match watermark with
    | none => today - 400
    | some w => w + 1
  (startDate, endDate)

/-! ### Orchestrator -/

/-- The four registered sync targets, in the order the script processes
them: `Daily_Total` (the anchor), `Raw_Data`, `Device_Data`, `Query_Data`. -/
inductive Target
  | total
  | raw
  | device
  | query
deriving DecidableEq, Repr

/-- A row returned by the Search Analytics query: dimension key strings plus
the four metrics. The float metrics are carried opaquely (the script only
copies them into the sheet). -/
structure ApiRow where
  keys : List String
  clicks : Int
  impressions : Int
  ctr : Int
  position : Int
deriving DecidableEq, Repr

/-- A spreadsheet cell written by the script. -/
inductive Cell
  | str (s : String)
  | num (n : Int)
deriving DecidableEq, Repr

/-- The metric cells shared by every target's row shape. -/
def metricCells (r : ApiRow) : List Cell :=
  [.num r.clicks, .num r.impressions, .num r.ctr, .num r.position]

/-- Model of Python's `r['keys'][i]`: raises `IndexError` (an error
outcome) when the keys list is too short. -/
def keyAt (r : ApiRow) (i : Nat) : Except Unit String :=
  match r.keys.get? i with
  | some s => .ok s
  | none => .error ()

/-- The sheet row built from an API row for each target (main.py lines
124, 135, 148, 159): `keys[0]` is the date, further keys are the target's
extra dimensions, then the metrics. A row with too few keys raises
`IndexError` inside the shared `try`, so the transform is fallible. -/
def rowCells : Target → ApiRow → Except Unit (List Cell)
  | .total, r => do
      let k0 ← keyAt r 0
      pure (.str k0 :: metricCells r)
  | .raw, r => do
      let k0 ← keyAt r 0
      let k1 ← keyAt r 1
      let k2 ← keyAt r 2
      pure (.str k0 :: .str k1 :: .str k2 :: metricCells r)
  | .device, r => do
      let k0 ← keyAt r 0
      let k1 ← keyAt r 1
      pure (.str k0 :: .str k1 :: metricCells r)
  | .query, r => do
      let k0 ← keyAt r 0
      let k1 ← keyAt r 1
      pure (.str k0 :: .str k1 :: metricCells r)

/-- Variant of `get_last_date` applied to the anchor worksheet, with the column's date
cells carried as already-parsed day numbers (the string-level computation is
`get_last_date`; the ISO rendering is order-preserving, see the development
around `isoStr`). Same shape as main.py lines 58-67: a read failure and an
empty data range both yield `none`, otherwise the maximum. -/
def get_last_date_days (colRead : Except Unit (List Int)) : Option Int :=
  match colRead with
  | .error _ => none
  | .ok col =>
    match col.drop 1 with
    | [] => none
    | d :: ds => some (pyMax (fun a b => decide (a < b)) d ds)

/-- The external environment of one run of `fetch_gsc_data`: what the
collaborators (credential store, spreadsheet service, Search Console API)
would answer. `fetch t` and `appendOk t` are the outcomes of the fetch and
append calls for target `t`, were they attempted; `.error`/`false` model a
raised exception. -/
structure Env where
  hasCreds : Bool
  openOk : Bool
  colRead : Except Unit (List Int)
  today : Int
  fetch : Target → Except Unit (List ApiRow)
  appendOk : Target → Bool

/-- The observable events of one run, in order. -/
inductive Event
  | credsMissing
  | openFailed
  | firstRun
  | upToDate
  | fetchAttempt (t : Target)
  | appendAttempt (t : Target) (rows : List (List Cell))
  | stored (t : Target) (n : Nat)
  | noData (t : Target)
  | runError
deriving DecidableEq, Repr

/-- The list comprehension building a target's sheet rows (main.py lines
124, 135, 148, 159): transforms the fetched rows in order and raises at the
first row whose transform raises. -/
def mapRows (t : Target) : List ApiRow → Except Unit (List (List Cell))
  | [] => .ok []
  | r :: rs =>
    match rowCells t r with
    | .error e => .error e
    | .ok c =>
      match mapRows t rs with
      | .error e => .error e
      | .ok cs => .ok (c :: cs)

/-- One target's block inside the `try` of main.py lines 116-164: issue the
fetch; on a raised error, the `except` at line 163 fires (`runError`) and
the run stops (`false`). On an empty result the append is skipped — only
the `Raw_Data` block (lines 138-139) prints a no-data notice. On a
non-empty result the row transform runs first (its `IndexError` on a
short-keys row also reaches the `except`), then the append; an append
error likewise reaches the `except` and stops the run. -/
def syncOne (env : Env) (t : Target) : List Event × Bool :=
  match env.fetch t with
  | .error _ => ([.fetchAttempt t, .runError], false)
  | .ok rows =>
    match rows with
    | [] => ((.fetchAttempt t) :: (if t = .raw then [.noData t] else []), true)
    | _ :: _ =>
      match mapRows t rows with
      | .error _ => ([.fetchAttempt t, .runError], false)
      | .ok data =>
        if env.appendOk t then
          ([.fetchAttempt t, .appendAttempt t data, .stored t data.length], true)
        else
          ([.fetchAttempt t, .appendAttempt t data, .runError], false)

/-- The per-target loop: the blocks run in order inside one `try`, so the
first raised error ends the whole loop. -/
def syncAll (env : Env) : List Target → List Event
  | [] => []
  | t :: ts =>
    if (syncOne env t).2 then (syncOne env t).1 ++ syncAll env ts
    else (syncOne env t).1

/-- The processing order of main.py lines 117-161. -/
def targetOrder : List Target := [.total, .raw, .device, .query]

/-- Model of `fetch_gsc_data` (main.py lines 69-164) as a function of its
environment. Missing credentials (lines 72-79) and a failure while opening
the spreadsheet or ensuring the four worksheets (lines 81-90) end the run.
Otherwise the anchor watermark is read from `Daily_Total`'s first column,
the window is planned, the degenerate window returns early at lines
107-109, and the four targets are processed in order inside one
`try`/`except`. -/
def fetch_gsc_data (env : Env) : List Event :=
  if env.hasCreds = false then [.credsMissing]
  else if env.openOk = false then [.openFailed]
  else
    let wm := get_last_date_days env.colRead
    let w := planWindow wm env.today
    let pre : List Event := match wm with
      | none => [.firstRun]
      | some _ => []
    if w.2 < w.1 then pre ++ [.upToDate]
    else pre ++ syncAll env targetOrder

/-! ### Order lemmas for the lexicographic comparison -/

theorem strLtB_irrefl (a : PyStr) : strLtB a a = false := by
  induction a with
  | nil => rfl
  | cons x s ih => simp [strLtB, ih]

theorem strLtB_cons_iff {x y : Nat} {s t : PyStr} :
    strLtB (x :: s) (y :: t) = true ↔ x < y ∨ (x = y ∧ strLtB s t = true) := by
  simp only [strLtB]
  split_ifs with h1 h2
  · simp [h1]
  · simp; omega
  · have hxy : x = y := by omega
    simp [hxy]

theorem strLtB_trichot (a b : PyStr) : strLtB a b = true ∨ strLtB b a = true ∨ a = b := by
  induction a generalizing b with
  | nil => cases b <;> simp [strLtB]
  | cons x s ih =>
    cases b with
    | nil => right; left; rfl
    | cons y t =>
      rcases Nat.lt_trichotomy x y with h | h | h
      · left; exact strLtB_cons_iff.mpr (Or.inl h)
      · subst h
        rcases ih t with h2 | h2 | h2
        · left; exact strLtB_cons_iff.mpr (Or.inr ⟨rfl, h2⟩)
        · right; left; exact strLtB_cons_iff.mpr (Or.inr ⟨rfl, h2⟩)
        · right; right; rw [h2]
      · right; left; exact strLtB_cons_iff.mpr (Or.inl h)

theorem strLtB_trans {a b c : PyStr} (hab : strLtB a b = true) (hbc : strLtB b c = true) :
    strLtB a c = true := by
  induction a generalizing b c with
  | nil =>
    cases b with
    | nil => simp [strLtB] at hab
    | cons y t =>
      cases c with
      | nil => simp [strLtB] at hbc
      | cons z u => rfl
  | cons x s ih =>
    cases b with
    | nil => simp [strLtB] at hab
    | cons y t =>
      cases c with
      | nil => simp [strLtB] at hbc
      | cons z u =>
        rcases strLtB_cons_iff.mp hab with h1 | ⟨h1, h1'⟩ <;>
          rcases strLtB_cons_iff.mp hbc with h2 | ⟨h2, h2'⟩
        · exact strLtB_cons_iff.mpr (Or.inl (h1.trans h2))
        · exact strLtB_cons_iff.mpr (Or.inl (h2 ▸ h1))
        · exact strLtB_cons_iff.mpr (Or.inl (h1 ▸ h2))
        · exact strLtB_cons_iff.mpr (Or.inr ⟨h1.trans h2, ih h1' h2'⟩)

theorem strLtB_notLt_trans {a b c : PyStr} (hab : strLtB a b = false)
    (hbc : strLtB b c = false) : strLtB a c = false := by
  by_contra h
  rw [Bool.not_eq_false] at h
  rcases strLtB_trichot a b with h1 | h1 | h1
  · rw [h1] at hab; cases hab
  · have h2 := strLtB_trans h1 h
    rw [h2] at hbc; cases hbc
  · subst h1; rw [h] at hbc; cases hbc

/-! ### Properties of the running maximum -/

theorem pyMax_cons (lt : α → α → Bool) (m x : α) (xs : List α) :
    pyMax lt m (x :: xs) = pyMax lt (if lt m x then x else m) xs := rfl

theorem pyMax_mem (lt : α → α → Bool) (m : α) (l : List α) : pyMax lt m l ∈ m :: l := by
  induction l generalizing m with
  | nil => simp [pyMax]
  | cons x xs ih =>
    rw [pyMax_cons]
    rcases List.mem_cons.mp (ih (if lt m x then x else m)) with h | h
    · rw [h]
      split_ifs <;> simp
    · simp [h]

theorem pyMax_ub (lt : α → α → Bool)
    (htr : ∀ a b c, lt a b = true → lt b c = true → lt a c = true)
    (hnt : ∀ a b c, lt a b = false → lt b c = false → lt a c = false)
    (hirr : ∀ a, lt a a = false)
    (m : α) (l : List α) : ∀ x ∈ m :: l, lt (pyMax lt m l) x = false := by
  induction l generalizing m with
  | nil =>
    intro x hx
    rcases List.mem_cons.mp hx with rfl | hx
    · simp [pyMax, hirr]
    · cases hx
  | cons y ys ih =>
    intro x hx
    rw [pyMax_cons]
    by_cases hmy : lt m y = true
    · rw [if_pos hmy]
      rcases List.mem_cons.mp hx with heq | hx'
      · rw [heq]
        have hRy : lt (pyMax lt y ys) y = false := ih y y (List.mem_cons_self y ys)
        by_contra hc
        rw [Bool.not_eq_false] at hc
        rw [htr _ _ _ hc hmy] at hRy
        cases hRy
      · exact ih y x hx'
    · rw [Bool.not_eq_true] at hmy
      rw [if_neg (by simp [hmy])]
      rcases List.mem_cons.mp hx with heq | hx'
      · rw [heq]
        exact ih m m (List.mem_cons_self m ys)
      · rcases List.mem_cons.mp hx' with heq2 | hx''
        · rw [heq2]
          exact hnt _ _ _ (ih m m (List.mem_cons_self m ys)) hmy
        · exact ih m x (List.mem_cons.mpr (Or.inr hx''))

/-! ### The ISO rendering is order-preserving -/

theorem strLtB_pad4 {n1 n2 : Nat} (h1 : n1 ≤ 9999) (h2 : n2 ≤ 9999) (s t : PyStr) :
    strLtB (pad4 n1 ++ s) (pad4 n2 ++ t) =
      if n1 < n2 then true else if n2 < n1 then false else strLtB s t := by
  simp only [pad4, List.cons_append, List.nil_append, strLtB]
  split_ifs <;> first | rfl | omega

theorem strLtB_pad2 {n1 n2 : Nat} (h1 : n1 ≤ 99) (h2 : n2 ≤ 99) (s t : PyStr) :
    strLtB (pad2 n1 ++ s) (pad2 n2 ++ t) =
      if n1 < n2 then true else if n2 < n1 then false else strLtB s t := by
  simp only [pad2, List.cons_append, List.nil_append, strLtB]
  split_ifs <;> first | rfl | omega

theorem strLtB_cons_same (c : Nat) (s t : PyStr) :
    strLtB (c :: s) (c :: t) = strLtB s t := by
  simp [strLtB]

theorem strLtB_iso {u v : YMD} (hu : validYMD u) (hv : validYMD v) :
    strLtB (isoStr u) (isoStr v) = ymdLtB u v := by
  obtain ⟨huy1, huy2, hum1, hum2, hud1, hud2⟩ := hu
  obtain ⟨hvy1, hvy2, hvm1, hvm2, hvd1, hvd2⟩ := hv
  simp only [isoStr]
  rw [strLtB_pad4 huy2 hvy2]
  rw [strLtB_cons_same]
  rw [strLtB_pad2 (by omega) (by omega)]
  rw [strLtB_cons_same]
  rw [show pad2 u.d = pad2 u.d ++ [] by simp, show pad2 v.d = pad2 v.d ++ [] by simp]
  rw [strLtB_pad2 (by omega) (by omega)]
  simp only [ymdLtB]
  split_ifs <;> first | simp; omega | (simp [strLtB]; omega)

/-! ### Chronological order properties -/

theorem ymdLtB_irrefl (a : YMD) : ymdLtB a a = false := by
  simp [ymdLtB]

theorem ymdLtB_trans (a b c : YMD) (h1 : ymdLtB a b = true) (h2 : ymdLtB b c = true) :
    ymdLtB a c = true := by
  simp only [ymdLtB, decide_eq_true_eq] at h1 h2 ⊢
  omega

theorem ymdLtB_notLt_trans (a b c : YMD) (h1 : ymdLtB a b = false) (h2 : ymdLtB b c = false) :
    ymdLtB a c = false := by
  simp only [ymdLtB, decide_eq_false_iff_not] at h1 h2 ⊢
  omega

theorem pyMax_map_iso {a : YMD} {l : List YMD} (ha : validYMD a)
    (hl : ∀ x ∈ l, validYMD x) :
    pyMax strLtB (isoStr a) (l.map isoStr) = isoStr (pyMax ymdLtB a l) := by
  induction l generalizing a with
  | nil => rfl
  | cons x xs ih =>
    have hx : validYMD x := hl x (List.mem_cons_self x xs)
    have hxs : ∀ z ∈ xs, validYMD z := fun z hz => hl z (List.mem_cons.mpr (Or.inr hz))
    rw [List.map_cons, pyMax_cons, pyMax_cons, strLtB_iso ha hx]
    by_cases h : ymdLtB a x = true
    · rw [if_pos h, if_pos h]
      exact ih hx hxs
    · rw [if_neg h, if_neg h]
      exact ih ha hxs

/-! ### Run-level helper lemmas -/

theorem fetch_gsc_data_proceeds (env : Env) (w : Int)
    (h1 : env.hasCreds = true) (h2 : env.openOk = true)
    (hw : get_last_date_days env.colRead = some w)
    (hwin : w + 1 ≤ env.today - 3) :
    fetch_gsc_data env = syncAll env targetOrder := by
  simp only [fetch_gsc_data, h1, h2, hw, planWindow]
  rw [if_neg (by simp), if_neg (by simp)]
  have hgate : ¬(env.today - 3 < w + 1) := by omega
  rw [if_neg hgate]
  simp

theorem fetch_gsc_data_backfill (env : Env)
    (h1 : env.hasCreds = true) (h2 : env.openOk = true)
    (hcol : get_last_date_days env.colRead = none) :
    fetch_gsc_data env = Event.firstRun :: syncAll env targetOrder := by
  simp only [fetch_gsc_data, h1, h2, hcol, planWindow]
  rw [if_neg (by simp), if_neg (by simp)]
  have hgate : ¬(env.today - 3 < env.today - 400) := by omega
  rw [if_neg hgate]
  simp

theorem fetchAttempt_mem_syncOne (env : Env) (t : Target) :
    Event.fetchAttempt t ∈ (syncOne env t).1 := by
  cases hf : env.fetch t with
  | error e => simp [syncOne, hf]
  | ok rows =>
    cases rows with
    | nil => simp [syncOne, hf]
    | cons r rs =>
      cases hm : mapRows t (r :: rs) with
      | error e => simp [syncOne, hf, hm]
      | ok data =>
        by_cases happ : env.appendOk t = true <;> simp [syncOne, hf, hm, happ]

theorem fetch_gsc_data_upToDate (env : Env) (w : Int)
    (h1 : env.hasCreds = true) (h2 : env.openOk = true)
    (hw : get_last_date_days env.colRead = some w)
    (hwin : env.today - 3 < w + 1) :
    fetch_gsc_data env = [Event.upToDate] := by
  simp only [fetch_gsc_data, h1, h2, hw, planWindow]
  rw [if_neg (by simp), if_neg (by simp)]
  rw [if_pos hwin]
  simp

theorem fetchAttempt_mem_syncAll (env : Env) (t : Target) (ts : List Target) :
    Event.fetchAttempt t ∈ syncAll env (t :: ts) := by
  simp only [syncAll]
  split_ifs with h
  · exact List.mem_append_left _ (fetchAttempt_mem_syncOne env t)
  · exact fetchAttempt_mem_syncOne env t

/-! ## Claim C1 -/

/-- C1: the window planner, for anchor watermark `W`, today's date, the
fixed freshness lag 3 and backfill 400, yields `end_date = today - 3`, with
`start_date = W + 1` when the watermark is present and exactly
`today - 400` when it is absent. -/
theorem planWindow_matches_spec (w today : Int) :
    planWindow (some w) today = (w + 1, today - 3) ∧
    planWindow none today = (today - 400, today - 3) :=
  ⟨rfl, rfl⟩

/-! ## Claim C8 -/

/-- C8: planning is deterministic, and re-planning with the new watermark
`W' = end_date` yields a window starting the day after, hence disjoint from
the completed window: no already-synced day is fetched again. -/
theorem planWindow_deterministic_disjoint (wm : Option Int) (today today2 : Int) :
    planWindow wm today = planWindow wm today ∧
    (planWindow (some (planWindow wm today).2) today2).1 = (planWindow wm today).2 + 1 ∧
    ∀ d : Int, (planWindow wm today).1 ≤ d → d ≤ (planWindow wm today).2 →
      ¬((planWindow (some (planWindow wm today).2) today2).1 ≤ d ∧
        d ≤ (planWindow (some (planWindow wm today).2) today2).2) := by
  refine ⟨rfl, rfl, ?_⟩
  intro d h1 h2
  rcases wm with _ | w <;> simp only [planWindow] at h1 h2 ⊢ <;> omega

/-- Witness for C8 at `W = 0`, `today = 10`, `today2 = 20`, `d = 5`: day 5
lies in the completed window `[1, 7]` and outside the re-planned one. -/
theorem planWindow_deterministic_disjoint_witness :
    ¬((planWindow (some (planWindow (some 0) 10).2) 20).1 ≤ 5 ∧
      5 ≤ (planWindow (some (planWindow (some 0) 10).2) 20).2) :=
  (planWindow_deterministic_disjoint (some 0) 10 20).2.2 5 (by decide) (by decide)

/-! ## Claim C4 -/

/-- C4: when `watermark + 1 > today - 3` the run terminates successfully as
a no-op: its only event is the up-to-date notice, so no fetch and no append
is attempted (the sink, and hence the recomputed watermark, is unchanged)
and no error is reported. -/
theorem empty_window_noop (env : Env) (w : Int)
    (h1 : env.hasCreds = true) (h2 : env.openOk = true)
    (hw : get_last_date_days env.colRead = some w)
    (hwin : env.today - 3 < w + 1) :
    fetch_gsc_data env = [Event.upToDate] ∧
    (∀ t, Event.fetchAttempt t ∉ fetch_gsc_data env) ∧
    (∀ t rows, Event.appendAttempt t rows ∉ fetch_gsc_data env) ∧
    Event.runError ∉ fetch_gsc_data env := by
  have hrun := fetch_gsc_data_upToDate env w h1 h2 hw hwin
  refine ⟨hrun, ?_, ?_, ?_⟩ <;> simp [hrun]

/-- Environment whose anchor column holds header cell 0 and one data cell
for day 10 while today is day 5, so the window is empty. -/
def envUpToDate : Env :=
  { hasCreds := true
    openOk := true
    colRead := .ok [0, 10]
    today := 5
    fetch := fun _ => .ok []
    appendOk := fun _ => true }

/-- Witness for C4: a concrete empty-window run emits only the up-to-date
notice. -/
theorem empty_window_noop_witness :
    fetch_gsc_data envUpToDate = [Event.upToDate] :=
  (empty_window_noop envUpToDate 10 rfl rfl rfl (by decide)).1

/-! ## Claim C3 -/

/-- C3: in every run — with a present watermark, an absent watermark
(first-run backfill), or a run that never reaches the loop — if the anchor
target's fetch raises, or its block fails after a non-empty fetch (a raised
row transform or append), the shared `except` of main.py line 163 ends the
run and no other target's fetch or append is attempted. -/
theorem anchor_failure_aborts (env : Env)
    (hfail : env.fetch .total = .error () ∨
      ∃ r rs, env.fetch .total = .ok (r :: rs) ∧ env.appendOk .total = false) :
    ∀ t : Target, t ≠ .total →
      Event.fetchAttempt t ∉ fetch_gsc_data env ∧
      ∀ rows, Event.appendAttempt t rows ∉ fetch_gsc_data env := by
  intro t ht
  have hone : (syncOne env .total).2 = false ∧
      Event.fetchAttempt t ∉ (syncOne env .total).1 ∧
      ∀ rows, Event.appendAttempt t rows ∉ (syncOne env .total).1 := by
    rcases hfail with hf | ⟨r, rs, hf, ha⟩
    · simp [syncOne, hf, ht]
    · cases hm : mapRows .total (r :: rs) with
      | error e => simp [syncOne, hf, hm, ht]
      | ok data => simp [syncOne, hf, hm, ha, ht]
  have hstop : syncAll env targetOrder = (syncOne env .total).1 := by
    simp [targetOrder, syncAll, hone.1]
  cases hc : env.hasCreds with
  | false => simp [fetch_gsc_data, hc]
  | true =>
    cases ho : env.openOk with
    | false => simp [fetch_gsc_data, hc, ho]
    | true =>
      cases hwm : get_last_date_days env.colRead with
      | none =>
        rw [fetch_gsc_data_backfill env hc ho hwm, hstop]
        refine ⟨?_, ?_⟩
        · simp [hone.2.1]
        · intro rows
          simp [hone.2.2 rows]
      | some w =>
        by_cases hg : env.today - 3 < w + 1
        · rw [fetch_gsc_data_upToDate env w hc ho hwm hg]
          simp
        · have hwin : w + 1 ≤ env.today - 3 := by omega
          rw [fetch_gsc_data_proceeds env w hc ho hwm hwin, hstop]
          exact ⟨hone.2.1, hone.2.2⟩

/-- Environment where the anchor worksheet is empty (a first run) and the
anchor target's fetch raises. -/
def envAnchorFail : Env :=
  { hasCreds := true
    openOk := true
    colRead := .ok []
    today := 20
    fetch := fun _ => .error ()
    appendOk := fun _ => true }

/-- Witness for C3 on a first-run (absent watermark) environment: with the
anchor fetch failing, `Raw_Data` is never fetched. -/
theorem anchor_failure_aborts_witness :
    Event.fetchAttempt Target.raw ∉ fetch_gsc_data envAnchorFail :=
  (anchor_failure_aborts envAnchorFail (Or.inl rfl) Target.raw (by decide)).1

/-! ## Claim C2 -/

/-- An API row carrying all three dimension keys, enough for every
target's row shape. -/
def goodRow : ApiRow := ⟨["2024-06-05", "q1", "p1"], 1, 1, 0, 0⟩

/-- Environment where reading the anchor target's column raises. -/
def envColReadFails : Env :=
  { hasCreds := true
    openOk := true
    colRead := .error ()
    today := 20
    fetch := fun _ => .ok []
    appendOk := fun _ => true }

/-- C5 as stated is false on the code: `get_last_date` catches the read
failure (main.py lines 65-67) and returns `None`, so the run does not
abort — it proceeds as a first run and fetches the anchor target. -/
theorem anchor_read_failure_counterexample :
    Event.firstRun ∈ fetch_gsc_data envColReadFails ∧
    Event.fetchAttempt Target.total ∈ fetch_gsc_data envColReadFails := by
  decide

/-- C5 amended: a failure to read the anchor target's stored rows is
swallowed inside `get_last_date`; the watermark is treated as absent, the
400-day backfill window is planned, and the targets are fetched as on a
first run. -/
theorem anchor_read_failure_backfills (env : Env)
    (h1 : env.hasCreds = true) (h2 : env.openOk = true)
    (hcol : env.colRead = .error ()) :
    fetch_gsc_data env = Event.firstRun :: syncAll env targetOrder ∧
    Event.fetchAttempt .total ∈ fetch_gsc_data env := by
  have hwm : get_last_date_days env.colRead = none := by
    rw [hcol]
    rfl
  have heq := fetch_gsc_data_backfill env h1 h2 hwm
  refine ⟨heq, ?_⟩
  rw [heq]
  exact List.mem_cons.mpr (Or.inr (fetchAttempt_mem_syncAll env .total [.raw, .device, .query]))

/-- Witness for the amended C5: in the concrete read-failure run the anchor
target is fetched. -/
theorem anchor_read_failure_backfills_witness :
    Event.fetchAttempt Target.total ∈ fetch_gsc_data envColReadFails :=
  (anchor_read_failure_backfills envColReadFails rfl rfl rfl).2

/-! ## Claim C7 -/

/-- Environment where every fetch succeeds with well-formed rows but
`Device_Data` returns zero rows. -/
def envDeviceEmpty : Env :=
  { hasCreds := true
    openOk := true
    colRead := .ok [0, 10]
    today := 20
    fetch := fun t => if t = .device then .ok [] else .ok [goodRow]
    appendOk := fun _ => true }

/-- C7 as stated is false on the code: only the `Raw_Data` block (main.py
lines 138-139) prints a no-data notice; a zero-row `Device_Data` fetch
skips the append silently, recording no "no data" outcome. -/
theorem empty_result_counterexample :
    Event.fetchAttempt Target.device ∈ fetch_gsc_data envDeviceEmpty ∧
    Event.noData Target.device ∉ fetch_gsc_data envDeviceEmpty ∧
    Event.runError ∉ fetch_gsc_data envDeviceEmpty := by
  decide

/-- C7 amended: a target whose fetch returns zero rows has its append
skipped and is not treated as an error (the loop continues to the next
target), but only `Raw_Data` records the "no data" outcome; the other
targets skip silently. -/
theorem empty_fetch_skips_append (env : Env) (t : Target)
    (h : env.fetch t = .ok []) :
    (∀ rows, Event.appendAttempt t rows ∉ (syncOne env t).1) ∧
    Event.runError ∉ (syncOne env t).1 ∧
    (syncOne env t).2 = true ∧
    (Event.noData t ∈ (syncOne env t).1 ↔ t = .raw) := by
  by_cases hr : t = .raw
  · subst hr; simp [syncOne, h]
  · simp [syncOne, h, hr]

/-- Witness for the amended C7: the zero-row `Device_Data` block continues
the run. -/
theorem empty_fetch_skips_append_witness :
    (syncOne envDeviceEmpty Target.device).2 = true :=
  (empty_fetch_skips_append envDeviceEmpty Target.device rfl).2.2.1

/-! ## Claim C6 -/

/-- C6: on a column with at least one data cell, `get_last_date` returns
the maximum data cell value — a member of the data cells no data cell
exceeds; with no data cells, including on the entirely empty worksheet, it
returns `none` instead of failing. -/
theorem get_last_date_max (hdr d : PyStr) (ds : List PyStr) :
    get_last_date (.ok (hdr :: d :: ds)) = some (pyMax strLtB d ds) ∧
    pyMax strLtB d ds ∈ d :: ds ∧
    (∀ x ∈ d :: ds, strLtB (pyMax strLtB d ds) x = false) ∧
    get_last_date (.ok [hdr]) = none ∧
    get_last_date (.ok []) = none := by
  refine ⟨rfl, pyMax_mem _ _ _, ?_, rfl, rfl⟩
  exact pyMax_ub strLtB (fun a b c hab hbc => strLtB_trans hab hbc)
    (fun a b c hab hbc => strLtB_notLt_trans hab hbc) strLtB_irrefl d ds

/-- Witness for C6 on the column `["h", "1", "2"]` (as code points): the
maximum data cell is `"2"` and `"1"` does not exceed it. -/
theorem get_last_date_max_witness :
    get_last_date (.ok [[104], [49], [50]]) = some [50] ∧
    strLtB (pyMax strLtB [49] [[50]]) [49] = false :=
  ⟨(get_last_date_max [104] [49] [[50]]).1.trans (by decide),
    (get_last_date_max [104] [49] [[50]]).2.2.1 [49] (List.mem_cons_self _ _)⟩

/-! ## Claim C10 -/

/-- C10: the watermark is the lexicographic maximum of the date column's
string values, and when every cell is an ISO `YYYY-MM-DD` rendering of a
date, that maximum is the rendering of the chronologically latest date. -/
theorem watermark_lex_max_is_chronological (hdr : PyStr) (a : YMD) (l : List YMD)
    (ha : validYMD a) (hl : ∀ x ∈ l, validYMD x) :
    get_last_date (.ok (hdr :: (a :: l).map isoStr)) = some (isoStr (pyMax ymdLtB a l)) ∧
    pyMax ymdLtB a l ∈ a :: l ∧
    ∀ x ∈ a :: l, ymdLtB (pyMax ymdLtB a l) x = false := by
  refine ⟨?_, pyMax_mem _ _ _, pyMax_ub ymdLtB ymdLtB_trans ymdLtB_notLt_trans ymdLtB_irrefl a l⟩
  show some (pyMax strLtB (isoStr a) (l.map isoStr)) = _
  rw [pyMax_map_iso ha hl]

/-- Witness for C10 on the dates 2024-06-01 and 2024-06-04. -/
theorem watermark_lex_max_is_chronological_witness :
    get_last_date (.ok ([104] :: ([⟨2024, 6, 1⟩, ⟨2024, 6, 4⟩] : List YMD).map isoStr)) =
      some (isoStr (pyMax ymdLtB ⟨2024, 6, 1⟩ [⟨2024, 6, 4⟩])) :=
  (watermark_lex_max_is_chronological [104] ⟨2024, 6, 1⟩ [⟨2024, 6, 4⟩] (by decide)
    (by decide)).1

/-! ## Claim C9 -/

/-- C9: `ensure_worksheet` creates the target when it is missing, writes
the header row exactly when the first row is currently empty, never
overwrites a non-empty first row, and repeating it with the same non-empty
header leaves the target unchanged (worksheets reachable by this adapter
have a non-empty first row whenever they have any row). -/
theorem ensure_worksheet_idempotent (h : List String) (ws : List (List String))
    (hne : h ≠ []) (hgood : ∀ r rs, ws = r :: rs → r ≠ []) :
    ensure_worksheet none h = [h] ∧
    ensure_worksheet (some []) h = [h] ∧
    (ws.headD [] ≠ [] → ensure_worksheet (some ws) h = ws) ∧
    ensure_worksheet (some (ensure_worksheet (some ws) h)) h = ensure_worksheet (some ws) h ∧
    ensure_worksheet (some (ensure_worksheet none h)) h = ensure_worksheet none h := by
  refine ⟨rfl, rfl, ?_, ?_, ?_⟩
  · intro hh
    simp only [ensure_worksheet]
    rw [if_neg hh]
  · cases ws with
    | nil => simp [ensure_worksheet, hne]
    | cons r rs =>
      have hr : r ≠ [] := hgood r rs rfl
      simp [ensure_worksheet, hr]
  · simp [ensure_worksheet, hne]

/-- Witness for C9 with a concrete header: creation writes the header row
and a second call changes nothing. -/
theorem ensure_worksheet_idempotent_witness :
    ensure_worksheet none ["date", "clicks"] = [["date", "clicks"]] ∧
    ensure_worksheet (some (ensure_worksheet none ["date", "clicks"])) ["date", "clicks"] =
      ensure_worksheet none ["date", "clicks"] :=
  ⟨(ensure_worksheet_idempotent ["date", "clicks"] [["date", "clicks"]] (by decide)
      (by intro r rs hrs; injection hrs with hh1 hh2; rw [← hh1]; decide)).1,
    (ensure_worksheet_idempotent ["date", "clicks"] [["date", "clicks"]] (by decide)
      (by intro r rs hrs; injection hrs with hh1 hh2; rw [← hh1]; decide)).2.2.2.2⟩

end GscSync
